import Mathlib

/-!
Verification of the `piyolog-dashboard` text parser and analytics engine.

The TypeScript sources are embedded shallowly:

* JavaScript numbers are modelled as `ℚ`; all arithmetic the theorems touch
  (`+`, `-`, `*`, exact division) is exact in both worlds.  `ℚ` division by
  zero yields `0` where JavaScript yields `NaN`/`Infinity`; no theorem below
  depends on a division whose divisor is zero.
* `Math.sqrt` is modelled by `Rat.sqrt`.  The two functions agree on perfect
  squares and on the zero set (`sqrt v = 0 ↔ v = 0` for `v ≥ 0`), which are
  the only facts about square roots any theorem below uses.
* JavaScript `Date` objects are modelled by a plain record of calendar
  fields, interpreted in UTC (the code performs no timezone conversion;
  see the spec's design note on naive calendar dates).  `getTime` is the
  standard civil-calendar epoch arithmetic.
* Strings are modelled as `String`/`List Char`; the regular expressions of
  the parser are embedded as deterministic scanners that are equivalent to
  the backtracking semantics of the original patterns (noted per function).
* Mutation is made explicit: `filterByDateRange`, whose source mutates a
  caller-supplied end `Date` via `setHours`, returns the after-call value of
  its date arguments alongside its result.
-/

/-! ## Generic helpers -/

/-- Insert into a list sorted by `le` (used to model `Array.prototype.sort`;
all sort call sites below sort lists whose relevant keys are totally ordered,
where any comparison sort agrees with insertion sort). -/
def insertSorted (le : α → α → Bool) (a : α) : List α → List α
  | [] => [a]
  | b :: bs => if le a b then a :: b :: bs else b :: insertSorted le a bs

/-- Sort a list by `le` (insertion sort). -/
def sortByLe (le : α → α → Bool) (l : List α) : List α :=
  l.foldr (insertSorted le) []

/-- Numeric ascending sort, modelling `[...values].sort((a, b) => a - b)`. -/
def sortAsc (l : List ℚ) : List ℚ :=
  sortByLe (fun a b => decide (a ≤ b)) l

/-- Code-unit lexicographic order on character lists, modelling the default
string comparison used by `Array.prototype.sort()` on strings. -/
def lexLe : List Char → List Char → Bool
  | [], _ => true
  | _ :: _, [] => false
  | a :: as, b :: bs =>
    if a.toNat < b.toNat then true
    else if a.toNat = b.toNat then lexLe as bs
    else false

/-- Lexicographic order on strings (default JS string sort order). -/
def strLe (a b : String) : Bool := lexLe a.data b.data

/-! ## Date model

JavaScript `Date` restricted to the fields the code reads and writes.
`month` is 0-based exactly as in JS (`new Date(year, month - 1, day)`). -/

structure JsDate where
  year : Int
  month : Nat
  day : Nat
  hour : Nat
  minute : Nat
  second : Nat
  ms : Nat
deriving DecidableEq, Repr

/-- Days since the Unix epoch of a civil date (1-based month), the standard
civil-from-days algorithm used by every datetime implementation. -/
def daysFromCivil (y : Int) (m : Nat) (d : Nat) : Int :=
  let y' : Int := if m ≤ 2 then y - 1 else y
  let era : Int := (if 0 ≤ y' then y' else y' - 399) / 400
  let yoe : Int := y' - era * 400
  let mp : Int := ((m : Int) + 9) % 12
  let doy : Int := (153 * mp + 2) / 5 + (d : Int) - 1
  let doe : Int := yoe * 365 + yoe / 4 - yoe / 100 + doy
  era * 146097 + doe - 719468

/-- Source operation `Date.prototype.getTime` (epoch milliseconds, UTC
interpretation). -/
def JsDate.getTime (t : JsDate) : Int :=
  (daysFromCivil t.year (t.month + 1) t.day) * 86400000 +
    (t.hour : Int) * 3600000 + (t.minute : Int) * 60000 +
    (t.second : Int) * 1000 + (t.ms : Int)

/-- Source operation `setHours(h, m, s, ms)` — returns the updated date value; the JS method
mutates the receiver in place, which call sites below model explicitly. -/
def JsDate.setHours (t : JsDate) (h m s ms : Nat) : JsDate :=
  { t with hour := h, minute := m, second := s, ms := ms }

/-- Left-pad a numeral with zeros to width `w`. -/
def padZeros (w : Nat) (n : Nat) : String :=
  let s := Nat.repr n
  String.mk (List.replicate (w - s.length) '0') ++ s

/-- The `YYYY-MM-DD` prefix of `Date.prototype.toISOString` (UTC model). -/
def isoDateKey (t : JsDate) : String :=
  padZeros 4 t.year.toNat ++ "-" ++ padZeros 2 (t.month + 1) ++ "-" ++ padZeros 2 t.day

/-! ## Record model (`src/types/database`) -/

inductive ActivityType
  | feeding | sleeping | diaper | temperature | weight | height
  | bath | walk | medicine | hospital
deriving DecidableEq, Repr

/-- Source type `PiyologRecord` — `metadata.importedAt` (the wall clock at import time)
is omitted: it is an opaque timestamp no analytics function reads. -/
structure PiyologRecord where
  id : Nat
  timestamp : JsDate
  activityType : ActivityType
  duration : Option ℚ
  quantity : Option ℚ
  notes : Option String
  importedFilename : String
deriving DecidableEq, Repr

/-! ## Statistics module (`src/lib/analytics/statistics.ts`) -/

/-- Source function `calculateMean`. -/
def calculateMean (values : List ℚ) : ℚ :=
  if values.length = 0 then 0
  else values.foldl (fun sum val => sum + val) 0 / values.length

/-- Source function `calculateMedian`. -/
def calculateMedian (values : List ℚ) : ℚ :=
  if values.length = 0 then 0
  else
    let sorted := sortAsc values
    let mid := sorted.length / 2
    if sorted.length % 2 = 0 then (sorted.getD (mid - 1) 0 + sorted.getD mid 0) / 2
    else sorted.getD mid 0

/-- Source function `calculatePercentile`; the out-of-range `throw` is modelled as `none`. -/
def calculatePercentile (values : List ℚ) (percentile : ℚ) : Option ℚ :=
  if values.length = 0 then some 0
  else if percentile < 0 ∨ 100 < percentile then none
  else
    let sorted := sortAsc values
    let index : ℚ := percentile / 100 * ((sorted.length : ℚ) - 1)
    let lower : Nat := (⌊index⌋).toNat
    let upper : Nat := (⌈index⌉).toNat
    let weight : ℚ := index - lower
    if lower = upper then some (sorted.getD lower 0)
    else some (sorted.getD lower 0 * (1 - weight) + sorted.getD upper 0 * weight)

/-- Argument of `filterByDateRange`: a JS `string | Date` value.  A string
argument is modelled by the date `new Date(string)` parses it to; only a
`date` argument is an object the caller shares with the callee. -/
inductive DateArg
  | str (d : JsDate)
  | date (d : JsDate)
deriving DecidableEq, Repr

/-- The local `start`/`end` variable of `filterByDateRange`: a string is
re-parsed into a fresh `Date`, a `Date` is aliased as-is. -/
def DateArg.toDate : DateArg → JsDate
  | .str d => d
  | .date d => d

/-- Outcome of `filterByDateRange`: the returned array plus the after-call
values of the two date arguments as the caller sees them (`end.setHours`
mutates the caller's object precisely when a `Date` was passed). -/
structure FilterOutcome where
  result : List PiyologRecord
  startArgAfter : Option DateArg
  endArgAfter : Option DateArg
deriving DecidableEq, Repr

/-- Source function `filterByDateRange`, with the `setHours` mutation of the
end date made explicit in the outcome. -/
def filterByDateRange (records : List PiyologRecord)
    (startDate endDate : Option DateArg) : FilterOutcome :=
  let start : Option JsDate := startDate.map DateArg.toDate
  let endD : Option JsDate := (endDate.map DateArg.toDate).map
    (fun e => e.setHours 23 59 59 999)
  let kept := records.filter (fun record =>
    let timestamp := record.timestamp.getTime
    if (match start with | some s => decide (timestamp < s.getTime) | none => false)
    then false
    else if (match endD with | some e => decide (e.getTime < timestamp) | none => false)
    then false
    else true)
  { result := kept
    startArgAfter := startDate
    endArgAfter := endDate.map (fun a =>
      match a with
      | .str d => .str d
      | .date d => .date (d.setHours 23 59 59 999)) }

/-! ## Trend module (`src/lib/analytics/trends.ts`) -/

/-- Source type `TimeSeriesPoint`. -/
structure TimeSeriesPoint where
  date : JsDate
  value : ℚ
deriving DecidableEq, Repr

/-- Source type `LinearRegression`. -/
structure LinearRegression where
  slope : ℚ
  intercept : ℚ
  rSquared : ℚ
deriving DecidableEq, Repr

/-- Append a record under a day key, modelling one step of the `Map`
building in `groupRecordsByDate` (JS `Map` keeps key insertion order). -/
def groupInsert (m : List (String × List PiyologRecord)) (k : String)
    (r : PiyologRecord) : List (String × List PiyologRecord) :=
  match m with
  | [] => [(k, [r])]
  | (k', rs) :: rest =>
    if k' = k then (k', rs ++ [r]) :: rest else (k', rs) :: groupInsert rest k r

/-- Source function `groupRecordsByDate` — the day key is the `YYYY-MM-DD`
prefix of `toISOString`. -/
def groupRecordsByDate (records : List PiyologRecord) :
    List (String × List PiyologRecord) :=
  records.foldl (fun m r => groupInsert m (isoDateKey r.timestamp) r) []

/-- Lookup modelling `grouped.get(k)!` — the call sites only look up keys
that are present. -/
def mapGetD (m : List (String × List PiyologRecord)) (k : String) :
    List PiyologRecord :=
  match m with
  | [] => []
  | (k', rs) :: rest => if k' = k then rs else mapGetD rest k

/-- Source function `calculateLinearRegression` (ordinary least squares on days-since-first
versus value).  The slope division has a nonzero divisor whenever the data
spans at least two distinct instants; no theorem below evaluates the
zero-divisor case (JS would produce non-finite numbers there). -/
def calculateLinearRegression (data : List TimeSeriesPoint) :
    Option LinearRegression :=
  if data.length < 2 then none
  else
    let firstDate : Int := (data.headD ⟨⟨1970, 0, 1, 0, 0, 0, 0⟩, 0⟩).date.getTime
    let x : List ℚ := data.map (fun p => ((p.date.getTime - firstDate : Int) : ℚ) / 86400000)
    let y : List ℚ := data.map (fun p => p.value)
    let n : ℚ := x.length
    let sumX := x.foldl (fun sum val => sum + val) 0
    let sumY := y.foldl (fun sum val => sum + val) 0
    let sumXY := x.enum.foldl (fun sum p => sum + p.2 * y.getD p.1 0) 0
    let sumXX := x.foldl (fun sum val => sum + val * val) 0
    let slope := (n * sumXY - sumX * sumY) / (n * sumXX - sumX * sumX)
    let intercept := (sumY - slope * sumX) / n
    let meanY := sumY / n
    let ssTotal := y.foldl (fun sum val => sum + (val - meanY) ^ 2) 0
    let ssResidual := y.enum.foldl
      (fun sum p => sum + (p.2 - (slope * x.getD p.1 0 + intercept)) ^ 2) 0
    let rSquared := if ssTotal = 0 then 0 else 1 - ssResidual / ssTotal
    some { slope := slope, intercept := intercept, rSquared := rSquared }

/-! ## Correlation and outlier module (`src/lib/analytics/correlations.ts`) -/

inductive CorrelationStrength
  | veryWeak | weak | moderate | strong | veryStrong
deriving DecidableEq, Repr

inductive CorrelationDirection
  | positive | negative | none
deriving DecidableEq, Repr

/-- Source type `CorrelationResult`. -/
structure CorrelationResult where
  activityType1 : ActivityType
  activityType2 : ActivityType
  coefficient : ℚ
  strength : CorrelationStrength
  direction : CorrelationDirection
  sampleSize : Nat
deriving DecidableEq, Repr

/-- Source function `calculatePearsonCorrelation`. -/
def calculatePearsonCorrelation (x y : List ℚ) : Option ℚ :=
  if x.length ≠ y.length ∨ x.length < 2 then none
  else
    let n : ℚ := x.length
    let sumX := x.foldl (fun sum val => sum + val) 0
    let sumY := y.foldl (fun sum val => sum + val) 0
    let sumXY := x.enum.foldl (fun sum p => sum + p.2 * y.getD p.1 0) 0
    let sumXX := x.foldl (fun sum val => sum + val * val) 0
    let sumYY := y.foldl (fun sum val => sum + val * val) 0
    let numerator := n * sumXY - sumX * sumY
    let denominator := Rat.sqrt ((n * sumXX - sumX * sumX) * (n * sumYY - sumY * sumY))
    if denominator = 0 then none
    else some (numerator / denominator)

/-- Source function `interpretCorrelationStrength` (`0.8`, `0.6`, `0.4`,
`0.2` written as exact rationals). -/
def interpretCorrelationStrength (coefficient : ℚ) : CorrelationStrength :=
  let abs := |coefficient|
  if 8 / 10 ≤ abs then .veryStrong
  else if 6 / 10 ≤ abs then .strong
  else if 4 / 10 ≤ abs then .moderate
  else if 2 / 10 ≤ abs then .weak
  else .veryWeak

/-- Source function `determineCorrelationDirection` (default threshold `0.1`). -/
def determineCorrelationDirection (coefficient : ℚ) (threshold : ℚ) :
    CorrelationDirection :=
  if |coefficient| < threshold then .none
  else if 0 < coefficient then .positive
  else .negative

/-- The aligned daily-frequency vector an activity type gets inside
`calculateActivityCorrelation`: one count per sorted day key of the
grouping of ALL records. -/
def alignedFreqVector (records : List PiyologRecord) (t : ActivityType) : List ℚ :=
  let grouped := groupRecordsByDate records
  let dates := sortByLe strLe (grouped.map (fun e => e.1))
  dates.map (fun date =>
    (((mapGetD grouped date).filter (fun r => r.activityType == t)).length : ℚ))

/-- Source function `calculateActivityCorrelation`. -/
def calculateActivityCorrelation (records : List PiyologRecord)
    (activityType1 activityType2 : ActivityType) : Option CorrelationResult :=
  let freq1 := alignedFreqVector records activityType1
  let freq2 := alignedFreqVector records activityType2
  if freq1.length < 7 then none
  else
    match calculatePearsonCorrelation freq1 freq2 with
    | none => none
    | some coefficient =>
      some { activityType1 := activityType1
             activityType2 := activityType2
             coefficient := coefficient
             strength := interpretCorrelationStrength coefficient
             direction := determineCorrelationDirection coefficient (1 / 10)
             sampleSize := freq1.length }

inductive MetricKind
  | duration | quantity
deriving DecidableEq, Repr

inductive OutlierMethod
  | zscore | iqr
deriving DecidableEq, Repr

inductive OutlierSeverity
  | mild | moderate | extreme
deriving DecidableEq, Repr

/-- Source type `OutlierResult`. -/
structure OutlierResult where
  record : PiyologRecord
  metric : MetricKind
  value : ℚ
  method : OutlierMethod
  score : ℚ
  severity : OutlierSeverity
deriving DecidableEq, Repr

/-- The read `metric === 'duration' ? r.duration : r.quantity`. -/
def metricValue (r : PiyologRecord) (metric : MetricKind) : Option ℚ :=
  match metric with
  | .duration => r.duration
  | .quantity => r.quantity

/-- Source function `calculateZScore`. -/
def calculateZScore (value mean stdDev : ℚ) : ℚ :=
  if stdDev = 0 then 0 else (value - mean) / stdDev

/-- Source function `detectOutliersZScore` (default threshold `3`).  The trailing sort is by
descending `|score|`; ties (equal scores) carry no meaning downstream. -/
def detectOutliersZScore (records : List PiyologRecord) (activityType : ActivityType)
    (metric : MetricKind) (threshold : ℚ) : List OutlierResult :=
  let filtered := records.filter (fun r => r.activityType == activityType)
  let values := (filtered.map (fun r => metricValue r metric)).filterMap id
  if values.length < 5 then []
  else
    let mean : ℚ := values.foldl (fun sum v => sum + v) 0 / (values.length : ℚ)
    let variance : ℚ := values.foldl (fun sum v => sum + (v - mean) ^ 2) 0 / (values.length : ℚ)
    let stdDev := Rat.sqrt variance
    if stdDev = 0 then []
    else
      let outliers := filtered.foldl (fun acc record =>
        match metricValue record metric with
        | none => acc
        | some value =>
          let zScore := calculateZScore value mean stdDev
          let absZScore := |zScore|
          if threshold < absZScore then
            let severity : OutlierSeverity :=
              if 4 < absZScore then .extreme
              else if 7 / 2 < absZScore then .moderate
              else .mild
            acc ++ [{ record := record, metric := metric, value := value,
                      method := .zscore, score := zScore, severity := severity }]
          else acc) []
      sortByLe (fun a b => decide (|b.score| ≤ |a.score|)) outliers

/-- Source function `detectOutliersIQR` (default multiplier `1.5`; the
`0.25`/`0.75` index factors are exact rationals). -/
def detectOutliersIQR (records : List PiyologRecord) (activityType : ActivityType)
    (metric : MetricKind) (multiplier : ℚ) : List OutlierResult :=
  let filtered := records.filter (fun r => r.activityType == activityType)
  let values := (filtered.map (fun r => metricValue r metric)).filterMap id
  if values.length < 5 then []
  else
    let sorted := sortAsc values
    let q1Index : Nat := (⌊(sorted.length : ℚ) * (1 / 4)⌋).toNat
    let q3Index : Nat := (⌊(sorted.length : ℚ) * (3 / 4)⌋).toNat
    let q1 := sorted.getD q1Index 0
    let q3 := sorted.getD q3Index 0
    let iqr := q3 - q1
    let lowerBound := q1 - multiplier * iqr
    let upperBound := q3 + multiplier * iqr
    let outliers := filtered.foldl (fun acc record =>
      match metricValue record metric with
      | none => acc
      | some value =>
        if value < lowerBound ∨ upperBound < value then
          let iqrScore := if value < lowerBound then (lowerBound - value) / iqr
            else (value - upperBound) / iqr
          let severity : OutlierSeverity :=
            if 3 < iqrScore then .extreme
            else if 2 < iqrScore then .moderate
            else .mild
          acc ++ [{ record := record, metric := metric, value := value,
                    method := .iqr, score := iqrScore, severity := severity }]
        else acc) []
    sortByLe (fun a b => decide (b.score ≤ a.score)) outliers

/-! ## Text parser (`src/lib/piyolog-text-parser.ts`)

The regular expressions of the source are embedded as deterministic
character-list scanners.  Wherever a pattern is deterministic only up to
backtracking, the scanner is equivalent to the backtracking semantics
because every abandoned alternative would place a digit (or a dot) where
the pattern next requires a non-digit literal; these arguments are noted
at the individual functions. -/

/-- Whitespace for JS `\s` and `trim` on the characters that can occur here. -/
def isSpaceChar (c : Char) : Bool :=
  c = ' ' || c = '\t' || c = '\n' || c = '\r' || c = '\x0b' || c = '\x0c' ||
    c = ' ' || c = '　'

/-- Source operation `String.prototype.trim`. -/
def trimChars (l : List Char) : List Char :=
  ((l.dropWhile isSpaceChar).reverse.dropWhile isSpaceChar).reverse

/-- Line splitting `textContent.split('\n')` (always one more part than separators; the
empty string splits into `[[]]`, so `totalLines` of an empty input is 1,
as in JS). -/
def splitLines : List Char → List (List Char)
  | [] => [[]]
  | c :: cs =>
    match splitLines cs with
    | [] => [[c]]
    | p :: ps => if c = '\n' then [] :: p :: ps else (c :: p) :: ps

/-- Greedy `\d+` prefix: the maximal run of leading digits and the rest. -/
def takeDigits : List Char → List Char × List Char
  | [] => ([], [])
  | c :: cs =>
    if c.isDigit then
      let p := takeDigits cs
      (c :: p.1, p.2)
    else ([], c :: cs)

/-- Decimal value of a digit string (`parseInt`). -/
def digitsToNat (l : List Char) : Nat :=
  l.foldl (fun acc c => 10 * acc + (c.toNat - 48)) 0

/-- Nonempty greedy `\d+` at the current position, with its value. -/
def matchDigits1 (l : List Char) : Option (Nat × List Char) :=
  let p := takeDigits l
  if p.1.isEmpty then none else some (digitsToNat p.1, p.2)

/-- Consume one expected literal character. -/
def expectChar (c : Char) (l : List Char) : Option (List Char) :=
  match l with
  | x :: xs => if x = c then some xs else none
  | [] => none

/-- Consume an expected literal string. -/
def dropLit : List Char → List Char → Option (List Char)
  | [], l => some l
  | _, [] => none
  | p :: ps, c :: cs => if c = p then dropLit ps cs else none

/-- Exactly `n` digits (`\d{n}`). -/
def takeExactDigits : Nat → List Char → Option (List Char × List Char)
  | 0, l => some ([], l)
  | _ + 1, [] => none
  | n + 1, c :: cs =>
    if c.isDigit then (takeExactDigits n cs).map (fun p => (c :: p.1, p.2))
    else none

/-- Pattern `(\d{1,2})` followed by the literal `stop`, with backtracking: two
digits are preferred; the one-digit alternative can only succeed when the
second character is `stop` itself (a digit is never `stop` here). -/
def take12DigitsThen (stop : Char) (l : List Char) : Option (Nat × List Char) :=
  match l with
  | a :: b :: c :: rest =>
    if a.isDigit then
      if b.isDigit then
        if c = stop then some (digitsToNat [a, b], rest) else none
      else if b = stop then some (digitsToNat [a], c :: rest)
      else none
    else none
  | [a, b] =>
    if a.isDigit && b = stop then some (digitsToNat [a], []) else none
  | _ => none

/-- Source pattern `HEADER_PATTERN = /^【ぴよログ】(\d{4})年(\d{1,2})月$/`. -/
def matchHeader (l : List Char) : Option (Nat × Nat) :=
  (dropLit "【ぴよログ】".data l).bind fun r =>
  (takeExactDigits 4 r).bind fun p =>
  (expectChar '年' p.2).bind fun r2 =>
  (take12DigitsThen '月' r2).bind fun q =>
  if q.2.isEmpty then some (digitsToNat p.1, q.1) else none

/-- Tail pattern `[^)]+\)$`: at least one non-`)` character, then `)`, then
the end. -/
def nonParenThenClose : List Char → Bool
  | [] => false
  | [_] => false
  | [x, y] => x ≠ ')' && y = ')'
  | x :: xs => x ≠ ')' && nonParenThenClose xs

/-- Source pattern `DATE_PATTERN = /^(\d{4})\/(\d{1,2})\/(\d{1,2})\([^)]+\)$/`. -/
def matchDateLine (l : List Char) : Option (Nat × Nat × Nat) :=
  (takeExactDigits 4 l).bind fun p =>
  (expectChar '/' p.2).bind fun r =>
  (take12DigitsThen '/' r).bind fun m =>
  (take12DigitsThen '(' m.2).bind fun d =>
  if nonParenThenClose d.2 then some (digitsToNat p.1, m.1, d.1) else none

/-- Tail pattern `\((\d+)か月(\d+)日\)$` of `CHILD_INFO_PATTERN`. -/
def childTail (l : List Char) : Bool :=
  match l with
  | '(' :: r =>
    match matchDigits1 r with
    | some (_, r1) =>
      match dropLit "か月".data r1 with
      | some r2 =>
        match matchDigits1 r2 with
        | some (_, r3) => r3 = ['日', ')']
        | none => false
      | none => false
    | none => false
  | _ => false

/-- Pattern `\s+` then the child-info tail, at any split of the whitespace
run. -/
def childAfterWs (l : List Char) : Bool :=
  childTail l ||
    match l with
    | c :: cs => isSpaceChar c && childAfterWs cs
    | [] => false

/-- Scan for a whitespace character starting the `\s+\(...\)$` suffix. -/
def childScan : List Char → Bool
  | [] => false
  | c :: cs => (isSpaceChar c && childAfterWs cs) || childScan cs

/-- Source pattern `CHILD_INFO_PATTERN = /^(.+?)\s+\((\d+)か月(\d+)日\)$/`
as a Boolean match: some nonempty prefix, then whitespace, then the tail. -/
def childInfoMatch : List Char → Bool
  | [] => false
  | _ :: cs => childScan cs

/-- Source pattern `EVENT_PATTERN = /^(\d{1,2}):(\d{2})\s+(.+)$/`; returns
hour, minute
and the captured event text.  If everything after the minutes is
whitespace, `(.+)` backtracks to capture the final whitespace character
(the call sites pass trimmed lines, where this cannot happen). -/
def matchEventLine (l : List Char) : Option (Nat × Nat × List Char) :=
  (take12DigitsThen ':' l).bind fun h =>
  (takeExactDigits 2 h.2).bind fun m =>
  match m.2 with
  | [] => none
  | c :: cs =>
    if isSpaceChar c then
      let wsPart := (c :: cs).takeWhile isSpaceChar
      let rest := (c :: cs).dropWhile isSpaceChar
      if rest.isEmpty then
        if 2 ≤ wsPart.length then some (h.1, digitsToNat m.1, [wsPart.getLastD ' '])
        else none
      else some (h.1, digitsToNat m.1, rest)
    else none

/-- One right-fold step for `split(/\s{2,}/)`: the state is the maximal
whitespace run immediately to the right of the cursor plus the parts of
the remainder. -/
def splitWs2Step (c : Char) (st : List Char × List (List Char)) :
    List Char × List (List Char) :=
  if isSpaceChar c then (c :: st.1, st.2)
  else
    if 2 ≤ st.1.length then ([], [c] :: st.2)
    else
      match st.2 with
      | [] => ([], [c :: st.1])
      | p :: ps => ([], (c :: st.1 ++ p) :: ps)

/-- Splitting `eventText.split(/\s{2,}/)`: split on maximal whitespace runs
of length at least 2 (single whitespace characters stay inside a part). -/
def splitWs2 (l : List Char) : List (List Char) :=
  let st := l.foldr splitWs2Step ([], [[]])
  if 2 ≤ st.1.length then [] :: st.2
  else
    match st.2 with
    | [] => [st.1]
    | p :: ps => (st.1 ++ p) :: ps

/-- The ordered activity keyword table (`ACTIVITY_TYPE_MAP`;
`Object.entries` preserves this insertion order). -/
def ACTIVITY_TYPE_MAP : List (List Char × ActivityType) :=
  [("母乳".data, .feeding), ("ミルク".data, .feeding), ("搾母乳".data, .feeding),
   ("睡眠".data, .sleeping), ("おしっこ".data, .diaper), ("うんち".data, .diaper),
   ("体重".data, .weight), ("身長".data, .height), ("体温".data, .temperature),
   ("お風呂".data, .bath), ("病院".data, .hospital), ("くすり".data, .medicine),
   ("その他".data, .walk), ("散歩".data, .walk)]

/-- Containment `hay.includes(needle)` — substring search. -/
def containsSub (hay needle : List Char) : Bool :=
  match hay with
  | [] => needle.isEmpty
  | _ :: t => needle.isPrefixOf hay || containsSub t needle

/-- First entry of `ACTIVITY_TYPE_MAP` whose keyword occurs in the event
type (the `for ... break` loop of `parseEventLine`). -/
def classifyActivity (eventType : List Char) : Option ActivityType :=
  ACTIVITY_TYPE_MAP.findSome? fun p =>
    if containsSub eventType p.1 then some p.2 else none

/-- Pattern `左(\d+)分` / `右(\d+)分` at the current position: the side glyph, a
nonempty digit run, then `分` (greedily equivalent: a shorter digit run
would put a digit where `分` is required). -/
def matchSideAt (side : Char) (l : List Char) : Option (Nat × List Char) :=
  match l with
  | c :: cs =>
    if c = side then
      match matchDigits1 cs with
      | some (v, r) =>
        match r with
        | '分' :: r2 => some (v, r2)
        | _ => none
      | none => none
    else none
  | [] => none

/-- Pattern `左(\d+)分\s*[▶/]\s*右(\d+)分` at the current position (`\s*` greedily
skips the whole whitespace run; giving characters back cannot help because
`[▶/]` and `右` match no whitespace). -/
def matchLRAt (l : List Char) : Option (Nat × Nat) :=
  match matchSideAt '左' l with
  | none => none
  | some (lv, r) =>
    match r.dropWhile isSpaceChar with
    | c :: r3 =>
      if c = '▶' || c = '/' then
        match matchSideAt '右' (r3.dropWhile isSpaceChar) with
        | some (rv, _) => some (lv, rv)
        | none => none
      else none
    | [] => none

/-- Search (leftmost match) for the two-sided breastfeeding pattern. -/
def searchLR : List Char → Option (Nat × Nat)
  | [] => none
  | c :: cs => (matchLRAt (c :: cs)).orElse fun _ => searchLR cs

/-- Search (leftmost match) for a one-sided `side(\d+)分` pattern. -/
def searchSide (side : Char) : List Char → Option Nat
  | [] => none
  | c :: cs =>
    (match matchSideAt side (c :: cs) with
     | some (v, _) => some v
     | none => none).orElse fun _ => searchSide side cs

/-- Result shape of `parseBreastFeeding`. -/
structure BreastFeedingDetail where
  duration : Option ℚ
  notes : Option String
deriving DecidableEq, Repr

/-- Source function `parseBreastFeeding`. -/
def parseBreastFeeding (text : List Char) : BreastFeedingDetail :=
  match searchLR text with
  | some (left, right) =>
    { duration := some ((left + right : ℕ) : ℚ)
      notes := some ("左" ++ Nat.repr left ++ "分 右" ++ Nat.repr right ++ "分") }
  | none =>
    match searchSide '左' text with
    | some left =>
      { duration := some ((left : ℕ) : ℚ), notes := some ("左" ++ Nat.repr left ++ "分") }
    | none =>
      match searchSide '右' text with
      | some right =>
        { duration := some ((right : ℕ) : ℚ), notes := some ("右" ++ Nat.repr right ++ "分") }
      | none => { duration := none, notes := some (String.mk text) }

/-- Result shape of the quantity detail parsers. -/
structure QuantityDetail where
  quantity : Option ℚ
  notes : Option String
deriving DecidableEq, Repr

/-- Search for `(\d+)` followed by a literal suffix, as in `/(\d+)ml/`
(equivalent to backtracking: a shorter digit run leaves a digit where the
suffix's first letter is required). -/
def searchNumThen (suffix : List Char) : List Char → Option Nat
  | [] => none
  | c :: cs =>
    (match matchDigits1 (c :: cs) with
     | some (v, r) => if suffix.isPrefixOf r then some v else none
     | none => none).orElse fun _ => searchNumThen suffix cs

/-- Source function `parseMilk` (`/(\d+)ml/`). -/
def parseMilk (text : List Char) : QuantityDetail :=
  match searchNumThen "ml".data text with
  | some v => { quantity := some ((v : ℕ) : ℚ), notes := some (String.mk text) }
  | none => { quantity := none, notes := some (String.mk text) }

/-- Pattern `(\d+\.?\d*)` followed by a literal suffix, at the current position,
returning the `parseFloat` of the captured text.  The omitted backtracking
alternatives (shrinking `\d*` or `\d+`) cannot succeed because they leave
a digit or a dot where the suffix's first letter is required. -/
def matchDecimalAt (suffix : List Char) (l : List Char) : Option ℚ :=
  match matchDigits1 l with
  | none => none
  | some (d, r) =>
    match r with
    | '.' :: r2 =>
      let p := takeDigits r2
      if suffix.isPrefixOf p.2 then
        some ((d : ℚ) + (digitsToNat p.1 : ℚ) / 10 ^ p.1.length)
      else if suffix.isPrefixOf r then some (d : ℚ)
      else none
    | _ => if suffix.isPrefixOf r then some (d : ℚ) else none

/-- Search (leftmost) for the decimal-then-suffix pattern. -/
def searchDecimalThen (suffix : List Char) : List Char → Option ℚ
  | [] => none
  | c :: cs => (matchDecimalAt suffix (c :: cs)).orElse fun _ => searchDecimalThen suffix cs

/-- Source function `parseWeight` (`/(\d+\.?\d*)kg/`). -/
def parseWeight (text : List Char) : QuantityDetail :=
  match searchDecimalThen "kg".data text with
  | some v => { quantity := some v, notes := some (String.mk text) }
  | none => { quantity := none, notes := some (String.mk text) }

/-- Source function `parseHeight` (`/(\d+\.?\d*)cm/`). -/
def parseHeight (text : List Char) : QuantityDetail :=
  match searchDecimalThen "cm".data text with
  | some v => { quantity := some v, notes := some (String.mk text) }
  | none => { quantity := none, notes := some (String.mk text) }

/-- Source function `parseTemperature` (`/(\d+\.?\d*)°C/`). -/
def parseTemperature (text : List Char) : QuantityDetail :=
  match searchDecimalThen "°C".data text with
  | some v => { quantity := some v, notes := some (String.mk text) }
  | none => { quantity := none, notes := some (String.mk text) }

/-- Source type `PiyologTextParseError`. -/
structure PiyologTextParseError where
  line : Nat
  message : String
  rawText : Option String
deriving DecidableEq, Repr

/-- Parser output `Omit<PiyologRecord, 'id'>` (metadata
flattened to the imported filename, as in the record model above). -/
structure ParsedRecord where
  timestamp : JsDate
  activityType : ActivityType
  duration : Option ℚ
  quantity : Option ℚ
  notes : Option String
  importedFilename : String
deriving DecidableEq, Repr

/-- Return shape of `parseEventLine`. -/
structure EventLineResult where
  record : Option ParsedRecord
  error : Option PiyologTextParseError
deriving DecidableEq, Repr

/-- The event-type/details split of `parseEventLine`: split on runs of two
or more whitespace characters; if that yields a single part, split at the
first whitespace character instead. -/
def splitEventText (eventText : List Char) : List (List Char) :=
  let parts0 := splitWs2 eventText
  if parts0.length = 1 then
    match eventText.findIdx? (fun c => isSpaceChar c) with
    | some i =>
      if 0 < i then
        [trimChars (eventText.take i), trimChars (eventText.drop (i + 1))]
      else [trimChars eventText]
    | none => [trimChars eventText]
  else parts0

/-- Source function `parseEventLine`. -/
def parseEventLine (line : List Char) (currentDate : JsDate) (lineNumber : Nat) :
    EventLineResult :=
  match matchEventLine line with
  | none => { record := none, error := none }
  | some (hour, minute, eventText) =>
    let timestamp := currentDate.setHours hour minute 0 0
    let parts := splitEventText eventText
    let eventType := trimChars (parts.headD [])
    let details := trimChars (List.intercalate [' '] (parts.drop 1))
    match classifyActivity eventType with
    | none =>
      { record := none
        error := some { line := lineNumber
                        message := "Unknown activity type: " ++ String.mk eventType
                        rawText := some (String.mk line) } }
    | some activityType0 =>
      let det : Option ℚ × Option ℚ × Option String × ActivityType :=
        if containsSub eventType "母乳".data then
          let parsed := parseBreastFeeding details
          (parsed.duration, none, parsed.notes, activityType0)
        else if containsSub eventType "ミルク".data || containsSub eventType "搾母乳".data then
          let parsed := parseMilk details
          (none, parsed.quantity, parsed.notes, activityType0)
        else if containsSub eventType "体重".data then
          let parsed := parseWeight details
          (none, parsed.quantity, parsed.notes, ActivityType.weight)
        else if containsSub eventType "身長".data then
          let parsed := parseHeight details
          (none, parsed.quantity, parsed.notes, ActivityType.height)
        else if containsSub eventType "体温".data then
          let parsed := parseTemperature details
          (none, parsed.quantity, parsed.notes, ActivityType.temperature)
        else
          (none, none, some (String.mk (if details.isEmpty then eventType else details)),
            activityType0)
      { record := some { timestamp := timestamp
                         activityType := det.2.2.2
                         duration := det.1
                         quantity := det.2.1
                         notes := det.2.2.1
                         importedFilename := "piyolog.txt" }
        error := none }

/-- Source type `PiyologTextParseResult`. -/
structure PiyologTextParseResult where
  records : List ParsedRecord
  errors : List PiyologTextParseError
  totalLines : Nat
  parsedEvents : Nat
deriving DecidableEq, Repr

/-- The `'----------'` separator. -/
def SEPARATOR : List Char := "----------".data

/-- The mutable scan state of the main loop of `parsePiyologText`. -/
structure ScanState where
  currentDate : Option JsDate
  currentYear : Option Nat
  currentMonth : Option Nat
  records : List ParsedRecord
  errors : List PiyologTextParseError
  parsedEvents : Nat
deriving DecidableEq, Repr

/-- Initial scan state. -/
def initScanState : ScanState :=
  { currentDate := none, currentYear := none, currentMonth := none,
    records := [], errors := [], parsedEvents := 0 }

/-- One iteration of the main loop of `parsePiyologText`; the entry is the
0-based line index with the raw line. -/
def processLine (filename : String) (st : ScanState) (entry : Nat × List Char) :
    ScanState :=
  let line := trimChars entry.2
  let lineNumber := entry.1 + 1
  if line.isEmpty || line = SEPARATOR then st
  else
    match matchHeader line with
    | some (y, m) => { st with currentYear := some y, currentMonth := some m }
    | none =>
      match matchDateLine line with
      | some (year, month, day) =>
        { st with currentDate := some ⟨(year : Int), month - 1, day, 0, 0, 0, 0⟩ }
      | none =>
        if childInfoMatch line then st
        else if containsSub line "合計".data || containsSub line "今日は".data ||
            containsSub line "メモ".data then st
        else
          match st.currentDate with
          | none => st
          | some currentDate =>
            let r := parseEventLine line currentDate lineNumber
            let st1 :=
              match r.record with
              | some record =>
                { st with
                    records := st.records ++ [{ record with importedFilename := filename }]
                    parsedEvents := st.parsedEvents + 1 }
              | none => st
            match r.error with
            | some e => { st1 with errors := st1.errors ++ [e] }
            | none => st1

/-- Source function `parsePiyologText` (the JS default for `filename` is
`'piyolog.txt'`). -/
def parsePiyologText (textContent : String) (filename : String) :
    PiyologTextParseResult :=
  let lines := splitLines textContent.data
  let final := lines.enum.foldl (processLine filename) initScanState
  { records := final.records
    errors := final.errors
    totalLines := lines.length
    parsedEvents := final.parsedEvents }

/-! ## Derived definitions and concrete inputs used by the theorems -/

/-- The `(activityType, metric)` value list both outlier detectors build
internally (their two identical `filter`/`map`/`filter` lines). -/
def metricValuesOf (records : List PiyologRecord) (activityType : ActivityType)
    (metric : MetricKind) : List ℚ :=
  ((records.filter (fun r => r.activityType == activityType)).map
    (fun r => metricValue r metric)).filterMap id

/-- Number of distinct calendar days carrying a record of either of the two
given activity types.  Modelled from the claim's words ("the union of
calendar days on which either of the two activities has a record"), for
comparison with what `calculateActivityCorrelation` actually counts. -/
def specUnionDayCount (records : List PiyologRecord) (t1 t2 : ActivityType) : Nat :=
  (((records.filter (fun r => r.activityType == t1 || r.activityType == t2)).map
      (fun r => isoDateKey r.timestamp)).foldl
    (fun acc k => if k ∈ acc then acc else acc ++ [k]) []).length

/-- The calendar day `2025-01-d`, 09:00 local, used by the concrete inputs. -/
def janDay (d : Nat) : JsDate := ⟨2025, 0, d, 9, 0, 0, 0⟩

/-- Constant-value series `[10, 10, 10]` over three consecutive days. -/
def constantSeries : List TimeSeriesPoint :=
  [⟨janDay 15, 10⟩, ⟨janDay 16, 10⟩, ⟨janDay 17, 10⟩]

/-- Perfectly linear strictly increasing series over four consecutive days. -/
def increasingSeries : List TimeSeriesPoint :=
  [⟨janDay 15, 10⟩, ⟨janDay 16, 12⟩, ⟨janDay 17, 14⟩, ⟨janDay 18, 16⟩]

/-- One record of the given type on day `d` of January 2025. -/
def mkCorrRec (i : Nat) (d : Nat) (t : ActivityType) : PiyologRecord :=
  ⟨i, janDay d, t, none, none, none, "t.txt"⟩

/-- Seven consecutive record days: feeding and sleeping alternate on days
1–6 and day 7 carries only a walk record, so the union of feeding/sleeping
days has six elements while every-record days number seven. -/
def corrUnionRecords : List PiyologRecord :=
  [mkCorrRec 1 1 .feeding, mkCorrRec 2 2 .sleeping, mkCorrRec 3 3 .feeding,
   mkCorrRec 4 4 .sleeping, mkCorrRec 5 5 .feeding, mkCorrRec 6 6 .sleeping,
   mkCorrRec 7 7 .walk]

/-- The correlation result the code produces for `corrUnionRecords`. -/
def resUnion : CorrelationResult :=
  { activityType1 := .feeding, activityType2 := .sleeping, coefficient := -3 / 4,
    strength := .strong, direction := .negative, sampleSize := 7 }

/-- Four feeding records, one numerically extreme, for the outlier guard. -/
def fourValueRecords : List PiyologRecord :=
  [⟨1, janDay 1, .feeding, some 10, none, none, "t"⟩,
   ⟨2, janDay 1, .feeding, some 10, none, none, "t"⟩,
   ⟨3, janDay 1, .feeding, some 10, none, none, "t"⟩,
   ⟨4, janDay 1, .feeding, some 1000, none, none, "t"⟩]

/-- Six feeding records with identical durations (zero variance). -/
def zeroVarianceRecords : List PiyologRecord :=
  [⟨1, janDay 1, .feeding, some 30, none, none, "t"⟩,
   ⟨2, janDay 1, .feeding, some 30, none, none, "t"⟩,
   ⟨3, janDay 2, .feeding, some 30, none, none, "t"⟩,
   ⟨4, janDay 2, .feeding, some 30, none, none, "t"⟩,
   ⟨5, janDay 3, .feeding, some 30, none, none, "t"⟩,
   ⟨6, janDay 3, .feeding, some 30, none, none, "t"⟩]

/-- A date used by the event-line evaluations (2025-04-10 as the parser
builds it from a date header). -/
def april10 : JsDate := ⟨2025, 3, 10, 0, 0, 0, 0⟩

/-- A block with a date header, three valid event lines and one line whose
activity keyword is unknown. -/
def mixedBlockInput : String :=
  "【ぴよログ】2025年4月\n----------\n2025/4/10(木)\n\n11:40   おしっこ\n11:42   母乳 左10分 ▶ 右10分\n11:50   謎の活動 詳細\n12:00   ミルク 50ml"

/-! ## Helper lemmas -/

theorem takeDigits_all (a : List Char) (c : Char) (r : List Char)
    (ha : ∀ d ∈ a, d.isDigit = true) (hc : c.isDigit = false) :
    takeDigits (a ++ c :: r) = (a, c :: r) := by
  induction a with
  | nil => simp [takeDigits, hc]
  | cons d ds ih =>
    have hd : d.isDigit = true := ha d (by simp)
    simp only [List.cons_append, takeDigits, hd, if_true, List.append_eq]
    rw [ih (fun x hx => ha x (by simp [hx]))]

theorem matchDigits1_all (a : List Char) (c : Char) (r : List Char)
    (ha : ∀ d ∈ a, d.isDigit = true) (ha0 : a ≠ []) (hc : c.isDigit = false) :
    matchDigits1 (a ++ c :: r) = some (digitsToNat a, c :: r) := by
  simp only [matchDigits1, takeDigits_all a c r ha hc]
  cases a with
  | nil => exact absurd rfl ha0
  | cons x xs => simp [List.isEmpty]

theorem not_mem_of_all_digits (a : List Char) (ha : ∀ d ∈ a, d.isDigit = true)
    (x : Char) (hx : x.isDigit = false) : x ∉ a := by
  intro hm
  have := ha x hm
  rw [hx] at this
  cases this

theorem matchSideAt_cons_ne (side c : Char) (cs : List Char) (h : c ≠ side) :
    matchSideAt side (c :: cs) = none := by
  simp [matchSideAt, h]

theorem matchSideAt_hit (side : Char) (a : List Char) (rest : List Char)
    (ha : ∀ d ∈ a, d.isDigit = true) (ha0 : a ≠ []) :
    matchSideAt side (side :: (a ++ '分' :: rest)) = some (digitsToNat a, rest) := by
  simp [matchSideAt, matchDigits1_all a '分' rest ha ha0 (by decide)]

theorem searchLR_not_mem (l : List Char) (h : '左' ∉ l) : searchLR l = none := by
  induction l with
  | nil => rfl
  | cons c cs ih =>
    have hc : c ≠ '左' := fun e => h (by simp [e])
    have h1 : matchLRAt (c :: cs) = none := by
      simp [matchLRAt, matchSideAt_cons_ne '左' c cs hc]
    simp [searchLR, h1, ih (fun m => h (by simp [m]))]

theorem searchSide_not_mem (side : Char) (l : List Char) (h : side ∉ l) :
    searchSide side l = none := by
  induction l with
  | nil => rfl
  | cons c cs ih =>
    have hc : c ≠ side := fun e => h (by simp [e])
    simp [searchSide, matchSideAt_cons_ne side c cs hc, ih (fun m => h (by simp [m]))]

theorem matchLRAt_full (a b : List Char) (sep : Char)
    (ha : ∀ d ∈ a, d.isDigit = true) (hb : ∀ d ∈ b, d.isDigit = true)
    (ha0 : a ≠ []) (hb0 : b ≠ []) (hsep : sep = '▶' ∨ sep = '/') :
    matchLRAt ('左' :: (a ++ '分' :: ' ' :: sep :: ' ' :: '右' :: (b ++ ['分']))) =
      some (digitsToNat a, digitsToNat b) := by
  rcases hsep with h | h
  · subst h
    have h1 := matchSideAt_hit '左' a (' ' :: '▶' :: ' ' :: '右' :: (b ++ ['分'])) ha ha0
    have h2 := matchSideAt_hit '右' b [] hb hb0
    simp [matchLRAt, h1, h2, List.dropWhile, isSpaceChar]
  · subst h
    have h1 := matchSideAt_hit '左' a (' ' :: '/' :: ' ' :: '右' :: (b ++ ['分'])) ha ha0
    have h2 := matchSideAt_hit '右' b [] hb hb0
    simp [matchLRAt, h1, h2, List.dropWhile, isSpaceChar]

theorem searchLR_full (a b : List Char) (sep : Char)
    (ha : ∀ d ∈ a, d.isDigit = true) (hb : ∀ d ∈ b, d.isDigit = true)
    (ha0 : a ≠ []) (hb0 : b ≠ []) (hsep : sep = '▶' ∨ sep = '/') :
    searchLR ('左' :: (a ++ '分' :: ' ' :: sep :: ' ' :: '右' :: (b ++ ['分']))) =
      some (digitsToNat a, digitsToNat b) := by
  simp [searchLR, matchLRAt_full a b sep ha hb ha0 hb0 hsep]

theorem searchLR_leftOnly (a : List Char)
    (ha : ∀ d ∈ a, d.isDigit = true) (ha0 : a ≠ []) :
    searchLR ('左' :: (a ++ ['分'])) = none := by
  have h1 : matchLRAt ('左' :: (a ++ ['分'])) = none := by
    simp [matchLRAt, matchSideAt_hit '左' a [] ha ha0, List.dropWhile]
  have h2 : searchLR (a ++ ['分']) = none := by
    refine searchLR_not_mem _ ?_
    intro hm
    rcases List.mem_append.1 hm with h | h
    · exact not_mem_of_all_digits a ha '左' (by decide) h
    · simp at h
  simp [searchLR, h1, h2]

theorem searchSide_hit (side : Char) (a : List Char) (rest : List Char)
    (ha : ∀ d ∈ a, d.isDigit = true) (ha0 : a ≠ []) :
    searchSide side (side :: (a ++ '分' :: rest)) = some (digitsToNat a) := by
  simp [searchSide, matchSideAt_hit side a rest ha ha0]

theorem searchSide_hit_end (side : Char) (a : List Char)
    (ha : ∀ d ∈ a, d.isDigit = true) (ha0 : a ≠ []) :
    searchSide side (side :: (a ++ ['分'])) = some (digitsToNat a) := by
  have := searchSide_hit side a [] ha ha0
  simpa using this

theorem foldl_add_all_eq (v : ℚ) : ∀ (l : List ℚ) (init : ℚ), (∀ x ∈ l, x = v) →
    l.foldl (fun sum x => sum + x) init = init + l.length * v := by
  intro l
  induction l with
  | nil => intro init _; simp
  | cons a as ih =>
    intro init h
    have ha : a = v := h a (by simp)
    simp only [List.foldl_cons, List.length_cons]
    rw [ih (init + a) (fun x hx => h x (by simp [hx])), ha]
    push_cast
    ring

theorem foldl_sq_all_eq (v : ℚ) : ∀ (l : List ℚ) (init : ℚ), (∀ x ∈ l, x = v) →
    l.foldl (fun sum x => sum + (x - v) ^ 2) init = init := by
  intro l
  induction l with
  | nil => intro init _; simp
  | cons a as ih =>
    intro init h
    have ha : a = v := h a (by simp)
    simp only [List.foldl_cons]
    rw [ha]
    simpa using ih init (fun x hx => h x (by simp [hx]))

theorem processLine_inv (filename : String) (st : ScanState) (entry : Nat × List Char)
    (h : st.parsedEvents = st.records.length) :
    (processLine filename st entry).parsedEvents =
      (processLine filename st entry).records.length := by
  simp only [processLine]
  split
  · exact h
  · split
    · exact h
    · split
      · exact h
      · split
        · exact h
        · split
          · exact h
          · split
            · exact h
            · split
              · split
                · simp [h]
                · exact h
              · split
                · simp [h]
                · exact h

theorem foldl_processLine_inv (filename : String) :
    ∀ (entries : List (Nat × List Char)) (st : ScanState),
      st.parsedEvents = st.records.length →
      (entries.foldl (processLine filename) st).parsedEvents =
        (entries.foldl (processLine filename) st).records.length := by
  intro entries
  induction entries with
  | nil => intro st h; exact h
  | cons e es ih =>
    intro st h
    exact ih (processLine filename st e) (processLine_inv filename st e h)

theorem strength_threshold_cases (c : ℚ) :
    (8 / 10 ≤ |c| → interpretCorrelationStrength c = .veryStrong)
    ∧ (6 / 10 ≤ |c| ∧ |c| < 8 / 10 → interpretCorrelationStrength c = .strong)
    ∧ (4 / 10 ≤ |c| ∧ |c| < 6 / 10 → interpretCorrelationStrength c = .moderate)
    ∧ (2 / 10 ≤ |c| ∧ |c| < 4 / 10 → interpretCorrelationStrength c = .weak)
    ∧ (|c| < 2 / 10 → interpretCorrelationStrength c = .veryWeak) := by
  simp only [interpretCorrelationStrength]
  split_ifs with h1 h2 h3 h4 <;>
    refine ⟨?_, ?_, ?_, ?_, ?_⟩ <;> intro h <;>
      first
        | rfl
        | (exfalso; rcases h with ⟨hl, hr⟩ <;> linarith)
        | (exfalso; linarith)

theorem direction_threshold_cases (c : ℚ) :
    (|c| < 1 / 10 → determineCorrelationDirection c (1 / 10) = .none)
    ∧ (1 / 10 ≤ |c| ∧ 0 < c → determineCorrelationDirection c (1 / 10) = .positive)
    ∧ (1 / 10 ≤ |c| ∧ c < 0 → determineCorrelationDirection c (1 / 10) = .negative) := by
  simp only [determineCorrelationDirection]
  split_ifs with h1 h2 <;>
    refine ⟨?_, ?_, ?_⟩ <;> intro h <;>
      first
        | rfl
        | (exfalso; rcases h with ⟨hl, hr⟩ <;> linarith)
        | (exfalso; linarith)

theorem corrUnion_eval :
    calculateActivityCorrelation corrUnionRecords .feeding .sleeping = some resUnion := by
  have hf1 : alignedFreqVector corrUnionRecords .feeding = [1, 0, 1, 0, 1, 0, 0] := by decide
  have hf2 : alignedFreqVector corrUnionRecords .sleeping = [0, 1, 0, 1, 0, 1, 0] := by decide
  have hP : calculatePearsonCorrelation [1, 0, 1, 0, 1, 0, 0] [0, 1, 0, 1, 0, 1, 0] =
      some (-3 / 4) := by
    norm_num [calculatePearsonCorrelation, List.enum, List.enumFrom,
      show Nat.sqrt 144 = 12 from by norm_num]
  simp only [calculateActivityCorrelation, hf1, hf2, hP]
  norm_num [resUnion, interpretCorrelationStrength, determineCorrelationDirection, abs_div,
    show |(-3 : ℚ)| = 3 from by rw [abs_of_nonpos] <;> norm_num,
    show |(4 : ℚ)| = 4 from by rw [abs_of_nonneg] <;> norm_num]

/-! ## Claim theorems -/

/-- C1: evaluating `calculateLinearRegression` settles the regression
degeneracy claim.  On the zero-variance series `[10, 10, 10]` the code does
NOT return `null`: it returns `{slope := 0, intercept := 10, rSquared := 0}`
(the `ssTotal = 0` case is mapped to `rSquared = 0`, not to `null`, although
the repository's own unit test expects `null` there).  The remaining parts
of the claim hold: fewer than 2 points give `none`, and a perfectly linear
strictly increasing series gives a positive slope with `rSquared` exactly 1. -/
theorem linearRegression_degenerate_eval :
    calculateLinearRegression constantSeries =
      some { slope := 0, intercept := 10, rSquared := 0 }
    ∧ (∀ data : List TimeSeriesPoint, data.length < 2 →
        calculateLinearRegression data = none)
    ∧ calculateLinearRegression increasingSeries =
      some { slope := 2, intercept := 10, rSquared := 1 } := by
  refine ⟨?_, ?_, ?_⟩
  · norm_num [calculateLinearRegression, constantSeries, List.enum, List.enumFrom,
      show ([10, 10, 10] : List ℚ)[1] = 10 from rfl,
      show ([10, 10, 10] : List ℚ)[2] = 10 from rfl,
      show ((janDay 15).getTime : ℚ) = 1736931600000 from by norm_cast,
      show ((janDay 16).getTime : ℚ) = 1737018000000 from by norm_cast,
      show ((janDay 17).getTime : ℚ) = 1737104400000 from by norm_cast]
  · intro data h
    simp only [calculateLinearRegression]
    rw [if_pos h]
  · norm_num [calculateLinearRegression, increasingSeries, List.enum, List.enumFrom,
      show ([10, 12, 14, 16] : List ℚ)[1] = 12 from rfl,
      show ([10, 12, 14, 16] : List ℚ)[2] = 14 from rfl,
      show ([10, 12, 14, 16] : List ℚ)[3] = 16 from rfl,
      show ((janDay 15).getTime : ℚ) = 1736931600000 from by norm_cast,
      show ((janDay 16).getTime : ℚ) = 1737018000000 from by norm_cast,
      show ((janDay 17).getTime : ℚ) = 1737104400000 from by norm_cast,
      show ((janDay 18).getTime : ℚ) = 1737190800000 from by norm_cast]

/-- Witness for the quantified part of the C1 theorem at a concrete
one-point input. -/
theorem linearRegression_degenerate_eval_witness :
    calculateLinearRegression [⟨janDay 15, 10⟩] = none :=
  linearRegression_degenerate_eval.2.1 [⟨janDay 15, 10⟩] (by decide)

/-- C2: evaluating `parseEventLine` on an expressed-milk (搾母乳) line with
an `Nml` detail.  Because `'搾母乳'.includes('母乳')` holds, the event is
routed to the breastfeeding branch, so no quantity is extracted from
`100ml` (the record has `quantity = none`, only the notes keep the raw
text), contradicting the claim; a bottle (ミルク) line does get
`quantity = 50` as claimed. -/
theorem expressedMilk_branch_eval :
    parseEventLine "10:00   搾母乳 100ml".data april10 6 =
      { record := some { timestamp := ⟨2025, 3, 10, 10, 0, 0, 0⟩,
                         activityType := .feeding, duration := none, quantity := none,
                         notes := some "100ml", importedFilename := "piyolog.txt" }
        error := none }
    ∧ (parseEventLine "14:00   ミルク 50ml".data april10 6).record =
      some { timestamp := ⟨2025, 3, 10, 14, 0, 0, 0⟩,
             activityType := .feeding, duration := none, quantity := some 50,
             notes := some "50ml", importedFilename := "piyolog.txt" } := by
  constructor
  · decide
  · decide

/-- Counterexample to C3 as stated: on `corrUnionRecords` the union of
feeding/sleeping days has 6 elements, so the claim predicts `null`, but the
code aligns over all seven record days and returns a result. -/
theorem corr_union_counterexample :
    (calculateActivityCorrelation corrUnionRecords .feeding .sleeping).isSome = true ∧
      specUnionDayCount corrUnionRecords .feeding .sleeping = 6 := by
  refine ⟨?_, by decide⟩
  rw [corrUnion_eval]
  rfl

/-- C3 (amended): `calculateActivityCorrelation` aligns the two
daily-frequency vectors over the sorted day keys of ALL records (not the
union of the two activities' days), returns `none` exactly when fewer than
7 such days exist or the Pearson computation is degenerate, and otherwise
classifies the Pearson coefficient with the claimed strength thresholds
(on absolute value) and direction threshold `0.1`. -/
theorem activityCorrelation_spec (records : List PiyologRecord) (t1 t2 : ActivityType) :
    (calculateActivityCorrelation records t1 t2 = none ↔
      (alignedFreqVector records t1).length < 7 ∨
        calculatePearsonCorrelation (alignedFreqVector records t1)
          (alignedFreqVector records t2) = none)
    ∧ ∀ res, calculateActivityCorrelation records t1 t2 = some res →
        calculatePearsonCorrelation (alignedFreqVector records t1)
            (alignedFreqVector records t2) = some res.coefficient
        ∧ res.sampleSize = (alignedFreqVector records t1).length
        ∧ res.activityType1 = t1 ∧ res.activityType2 = t2
        ∧ ((8 / 10 ≤ |res.coefficient| → res.strength = .veryStrong)
           ∧ (6 / 10 ≤ |res.coefficient| ∧ |res.coefficient| < 8 / 10 →
                res.strength = .strong)
           ∧ (4 / 10 ≤ |res.coefficient| ∧ |res.coefficient| < 6 / 10 →
                res.strength = .moderate)
           ∧ (2 / 10 ≤ |res.coefficient| ∧ |res.coefficient| < 4 / 10 →
                res.strength = .weak)
           ∧ (|res.coefficient| < 2 / 10 → res.strength = .veryWeak))
        ∧ ((|res.coefficient| < 1 / 10 → res.direction = .none)
           ∧ (1 / 10 ≤ |res.coefficient| ∧ 0 < res.coefficient →
                res.direction = .positive)
           ∧ (1 / 10 ≤ |res.coefficient| ∧ res.coefficient < 0 →
                res.direction = .negative)) := by
  simp only [calculateActivityCorrelation]
  split
  · constructor
    · simp_all
    · intro res hres
      cases hres
  · rename_i hlen
    cases hP : calculatePearsonCorrelation (alignedFreqVector records t1)
        (alignedFreqVector records t2) with
    | none =>
      constructor
      · simp [hlen]
      · intro res hres
        simp at hres
    | some c =>
      constructor
      · simp [hlen]
      · intro res hres
        injection hres with h
        subst h
        exact ⟨rfl, rfl, rfl, rfl, strength_threshold_cases c, direction_threshold_cases c⟩

/-- Witness for the C3 theorem: its classification clauses applied to the
concrete result the code returns on `corrUnionRecords`. -/
theorem corr_spec_witness :
    resUnion.strength = CorrelationStrength.strong ∧
      resUnion.direction = CorrelationDirection.negative ∧ resUnion.sampleSize = 7 := by
  have h := (activityCorrelation_spec corrUnionRecords .feeding .sleeping).2 resUnion
    corrUnion_eval
  have habs : |resUnion.coefficient| = 3 / 4 := by
    norm_num [resUnion, abs_div,
      show |(-3 : ℚ)| = 3 from by rw [abs_of_nonpos] <;> norm_num,
      show |(4 : ℚ)| = 4 from by rw [abs_of_nonneg] <;> norm_num]
  refine ⟨h.2.2.2.2.1.2.1 ⟨?_, ?_⟩, h.2.2.2.2.2.2.2 ⟨?_, ?_⟩, h.2.1.trans (by decide)⟩
  · rw [habs]; norm_num
  · rw [habs]; norm_num
  · rw [habs]; norm_num
  · norm_num [resUnion]

/-- C4: evaluating `filterByDateRange` with a caller-supplied end `Date`.
The `end.setHours(23, 59, 59, 999)` call mutates the caller's object, so
the end-date argument is NOT identical after the call (here 10:00 becomes
23:59:59.999), contradicting the never-mutate-input claim; the start
argument is returned unchanged for every input. -/
theorem filterByDateRange_end_mutation :
    filterByDateRange [] none (some (DateArg.date ⟨2025, 0, 15, 10, 0, 0, 0⟩)) =
      { result := [], startArgAfter := none,
        endArgAfter := some (DateArg.date ⟨2025, 0, 15, 23, 59, 59, 999⟩) }
    ∧ DateArg.date ⟨2025, 0, 15, 23, 59, 59, 999⟩ ≠ DateArg.date ⟨2025, 0, 15, 10, 0, 0, 0⟩
    ∧ ∀ (records : List PiyologRecord) (s e : Option DateArg),
        (filterByDateRange records s e).startArgAfter = s := by
  refine ⟨by decide, by decide, ?_⟩
  intro records s e
  rfl

/-- C5: on a block with a date header, three valid event lines and one
event line with an unrecognized activity keyword, `parsePiyologText`
(a total function — it can never throw) produces exactly one `ParseError`
with the claimed message and raw line, and all three valid lines still
produce records. -/
theorem unknown_activity_isolation :
    (parsePiyologText mixedBlockInput "t.txt").errors =
      [{ line := 7, message := "Unknown activity type: 謎の活動",
         rawText := some "11:50   謎の活動 詳細" }]
    ∧ (parsePiyologText mixedBlockInput "t.txt").records.map
        (fun r => (r.activityType, r.duration, r.quantity, r.notes)) =
      [(.diaper, none, none, some "おしっこ"),
       (.feeding, some 20, none, some "左10分 右10分"),
       (.feeding, none, some 50, some "50ml")]
    ∧ (parsePiyologText mixedBlockInput "t.txt").parsedEvents = 3 := by
  refine ⟨by decide, by decide, by decide⟩

/-- C6: `parseBreastFeeding` adds the two sides' minutes when the detail
contains `左N分` and `右M分` joined by `▶` or `/`; a single side alone
yields that side's minutes; and when none of the numeric patterns matches,
the record gets no duration and the notes keep the raw detail text. -/
theorem breastfeeding_duration_spec (a b : List Char) (sep : Char)
    (ha : ∀ d ∈ a, d.isDigit = true) (hb : ∀ d ∈ b, d.isDigit = true)
    (ha0 : a ≠ []) (hb0 : b ≠ []) (hsep : sep = '▶' ∨ sep = '/') :
    (parseBreastFeeding
        ('左' :: (a ++ '分' :: ' ' :: sep :: ' ' :: '右' :: (b ++ ['分'])))).duration =
      some ((digitsToNat a + digitsToNat b : ℕ) : ℚ)
    ∧ (parseBreastFeeding ('左' :: (a ++ ['分']))).duration =
      some ((digitsToNat a : ℕ) : ℚ)
    ∧ (parseBreastFeeding ('右' :: (b ++ ['分']))).duration =
      some ((digitsToNat b : ℕ) : ℚ)
    ∧ ∀ text : List Char, searchLR text = none → searchSide '左' text = none →
        searchSide '右' text = none →
        parseBreastFeeding text = { duration := none, notes := some (String.mk text) } := by
  refine ⟨?_, ?_, ?_, ?_⟩
  · simp [parseBreastFeeding, searchLR_full a b sep ha hb ha0 hb0 hsep]
  · simp [parseBreastFeeding, searchLR_leftOnly a ha ha0, searchSide_hit_end '左' a ha ha0]
  · have hnoL : '左' ∉ '右' :: (b ++ ['分']) := by
      intro hm
      rcases List.mem_cons.1 hm with h | h
      · cases h
      · rcases List.mem_append.1 h with h | h
        · exact not_mem_of_all_digits b hb '左' (by decide) h
        · simp at h
    simp [parseBreastFeeding, searchLR_not_mem _ hnoL, searchSide_not_mem '左' _ hnoL,
      searchSide_hit_end '右' b hb hb0]
  · intro text h1 h2 h3
    simp [parseBreastFeeding, h1, h2, h3]

/-- Witness for the C6 theorem at the spec's own example inputs. -/
theorem breastfeeding_duration_spec_witness :
    (parseBreastFeeding "左10分 ▶ 右10分".data).duration = some 20
    ∧ (parseBreastFeeding "左5分".data).duration = some 5
    ∧ (parseBreastFeeding "右8分".data).duration = some 8 := by
  have h1 := breastfeeding_duration_spec ['1', '0'] ['1', '0'] '▶'
    (by decide) (by decide) (by decide) (by decide) (Or.inl rfl)
  have h2 := breastfeeding_duration_spec ['5'] ['8'] '/'
    (by decide) (by decide) (by decide) (by decide) (Or.inr rfl)
  refine ⟨?_, ?_, ?_⟩
  · have e : "左10分 ▶ 右10分".data =
        '左' :: (['1', '0'] ++ '分' :: ' ' :: '▶' :: ' ' :: '右' :: (['1', '0'] ++ ['分'])) := by
      decide
    rw [e, h1.1]
    decide
  · have e : "左5分".data = '左' :: (['5'] ++ ['分']) := by decide
    rw [e, h2.2.1]
    decide
  · have e : "右8分".data = '右' :: (['8'] ++ ['分']) := by decide
    rw [e, h2.2.2.1]
    decide

/-- C7: `calculateMedian` averages the two middle values of the even-length
input `[10, 20, 30, 40]` to 25, and the R-7 interpolated
`calculatePercentile` gives 17.5 and 32.5 for the 25th and 75th
percentiles. -/
theorem quartile_correctness :
    calculateMedian [10, 20, 30, 40] = 25
    ∧ calculatePercentile [10, 20, 30, 40] 25 = some (35 / 2)
    ∧ calculatePercentile [10, 20, 30, 40] 75 = some (65 / 2) := by
  refine ⟨?_, ?_, ?_⟩
  · norm_num [calculateMedian, sortAsc, sortByLe, insertSorted]
  · norm_num [calculatePercentile, sortAsc, sortByLe, insertSorted,
      show ⌈(3 : ℚ) / 4⌉ = (1 : ℤ) from by rw [Int.ceil_eq_iff] ; norm_num]
  · norm_num [calculatePercentile, sortAsc, sortByLe, insertSorted,
      show Int.toNat 2 = 2 from rfl, show Int.toNat 3 = 3 from rfl,
      show ⌈(9 : ℚ) / 4⌉ = (3 : ℤ) from by rw [Int.ceil_eq_iff] ; norm_num]

/-- C8: whenever fewer than 5 records carry a value of the requested
metric, both outlier detectors return the empty list, for every threshold
and multiplier. -/
theorem outlier_minimum_sample_guard (records : List PiyologRecord)
    (t : ActivityType) (metric : MetricKind) (threshold multiplier : ℚ)
    (h : (metricValuesOf records t metric).length < 5) :
    detectOutliersZScore records t metric threshold = [] ∧
      detectOutliersIQR records t metric multiplier = [] := by
  simp only [metricValuesOf] at h
  constructor
  · simp only [detectOutliersZScore]
    rw [if_pos h]
  · simp only [detectOutliersIQR]
    rw [if_pos h]

/-- Witness for the C8 theorem: four values, one of them extreme. -/
theorem outlier_minimum_sample_guard_witness :
    detectOutliersZScore fourValueRecords .feeding .duration 3 = [] ∧
      detectOutliersIQR fourValueRecords .feeding .duration (3 / 2) = [] :=
  outlier_minimum_sample_guard fourValueRecords .feeding .duration 3 (3 / 2) (by decide)

/-- C9: for every input text and filename, the `parsedEvents` counter of
`parsePiyologText` equals the number of emitted records, and `totalLines`
is the number of parts the input splits into on newline. -/
theorem parsedEvents_eq_records_length (text filename : String) :
    (parsePiyologText text filename).parsedEvents =
      (parsePiyologText text filename).records.length
    ∧ (parsePiyologText text filename).totalLines = (splitLines text.data).length := by
  constructor
  · exact foldl_processLine_inv filename _ initScanState rfl
  · rfl

/-- C10: `detectOutliersZScore` never divides by zero: with 5 or more
metric values that are all identical, the population standard deviation is
0 and the detector returns the empty list, and `calculateZScore` itself
returns 0 whenever the standard deviation is 0. -/
theorem zscore_zero_variance_guard (records : List PiyologRecord) (t : ActivityType)
    (metric : MetricKind) (threshold : ℚ) (v : ℚ)
    (h5 : 5 ≤ (metricValuesOf records t metric).length)
    (hall : ∀ x ∈ metricValuesOf records t metric, x = v) :
    detectOutliersZScore records t metric threshold = [] ∧
      ∀ value mean : ℚ, calculateZScore value mean 0 = 0 := by
  simp only [metricValuesOf] at h5 hall
  constructor
  · simp only [detectOutliersZScore]
    rw [if_neg (by omega)]
    set values := ((records.filter (fun r => r.activityType == t)).map
      (fun r => metricValue r metric)).filterMap id with hv
    have hlen : (values.length : ℚ) ≠ 0 := by
      have : 0 < values.length := by omega
      positivity
    have hmean : values.foldl (fun sum x => sum + x) 0 / (values.length : ℚ) = v := by
      rw [foldl_add_all_eq v values 0 hall]
      field_simp
    rw [hmean]
    rw [foldl_sq_all_eq v values 0 hall]
    rw [zero_div]
    rw [if_pos (by decide : Rat.sqrt 0 = 0)]
  · intro value mean
    simp [calculateZScore]

/-- Witness for the C10 theorem: six identical durations. -/
theorem zscore_zero_variance_guard_witness :
    detectOutliersZScore zeroVarianceRecords .feeding .duration 3 = [] ∧
      ∀ value mean : ℚ, calculateZScore value mean 0 = 0 :=
  zscore_zero_variance_guard zeroVarianceRecords .feeding .duration 3 30
    (by decide) (by decide)
